import Mathlib

/-!
Shallow embedding of the scaleway-k8s-vpc PrivateNetwork controller
(`controllers` package) and of the generated deep-copy functions of the
`api/v1alpha1` package.

External collaborators (object store, go-ipam address pool, Scaleway
instance/VPC APIs) are modelled as response oracles collected in an `Env`
structure; a reconciliation pass is a pure function of the `Env` returning
the controller result together with the ordered trace of the mutating
calls it issued.  Go slices and pointers that can be nil are modelled as
`Option`; Go maps (labels, annotations) as association lists with unique
keys; Go errors as `Except String` (and dedicated small inductives where
the code branches on the kind of error).
-/

/-- Elementwise copy of a list, mirroring Go's `make` + `copy` idiom used by
the generated deep-copy functions. -/
def copyList {α : Type} : List α → List α
  | [] => []
  | a :: t => a :: copyList t

/-- Lookup in an association list, mirroring Go map indexing. -/
def getKV (m : List (String × String)) (k : String) : Option String :=
  (m.find? (fun p => p.1 == k)).map (fun p => p.2)

/-- Map assignment `m[k] = v`: replace the binding of `k` if present,
otherwise append it. -/
def setKV (m : List (String × String)) (k v : String) : List (String × String) :=
  if m.any (fun p => p.1 == k) then
    m.map (fun p => if p.1 == k then (k, v) else p)
  else m ++ [(k, v)]

/-- Copy every binding of `src` into `dst`, mirroring Go's
`for k, v := range src { dst[k] = v }`. -/
def copyInto (dst src : List (String × String)) : List (String × String) :=
  src.foldl (fun d p => setKV d p.1 p.2) dst

/-- Does `pat` occur as a leading segment of the list? -/
def startsWith : List Char → List Char → Bool
  | [], _ => true
  | _ :: _, [] => false
  | p :: ps, c :: cs => p == c && startsWith ps cs

/-- Suffix of the list after the leftmost occurrence of `pat`
(`none` when `pat` does not occur). -/
def restAfter (pat : List Char) : List Char → Option (List Char)
  | [] => if pat.isEmpty then some [] else none
  | c :: t =>
    if startsWith pat (c :: t) then some (List.drop pat.length (c :: t))
    else restAfter pat t

/-- Split at the first `'/'`: the characters before it and the characters
after it (`none` when there is no slash). -/
def splitFirstSlash : List Char → Option (List Char × List Char)
  | [] => none
  | c :: t =>
    if c == '/' then some ([], t)
    else
      match splitFirstSlash t with
      | none => none
      | some (a, b) => some (c :: a, b)

/-- Go's `strings.Split(addr, "/")[0]`: the part of the address before the
first slash (the whole string when there is none). -/
def addrIP (addr : String) : String :=
  String.mk (addr.data.takeWhile (fun c => c != '/'))

/-- Go's `strings.Split(s, "/")[1]`: the field between the first and second
slash (empty when the string has no slash, where Go would panic; the
controller only applies this to an IPNet rendering, which always has one). -/
def maskPart (s : String) : String :=
  String.mk (((s.data.dropWhile (fun c => c != '/')).drop 1).takeWhile (fun c => c != '/'))

/-- Constant `ipFinalizerName` of the controllers package. -/
def ipFinalizerName : String := "scaleway.com/finalizer-ip"

/-- Constant `finalizerName` of the controllers package. -/
def finalizerName : String := "scaleway.com/finalizer"

/-- Constant `privateNetworkLabel` of the controllers package. -/
def privateNetworkLabel : String := "private-network"

/-- Constant `nodeLabel` of the controllers package. -/
def nodeLabel : String := "node"

/-- Constant `RequeueDuration` (30 seconds), in seconds. -/
def RequeueDuration : Nat := 30

/-- Modelled from apimachinery: `metav1.TypeMeta` (value fields only). -/
structure TypeMeta where
  kind : String := ""
  apiVersion : String := ""
  deriving DecidableEq

/-- Modelled from apimachinery: a controller owner reference as produced by
`controllerutil.SetControllerReference` (the fields the claims mention). -/
structure OwnerRef where
  name : String
  controller : Bool
  deriving DecidableEq

/-- Modelled from apimachinery: the slice/map-bearing part of
`metav1.ObjectMeta` that the controller and the deep-copy functions use.
`deletionTimestamp = none` models a zero deletion timestamp. -/
structure ObjectMeta where
  name : String := ""
  generateName : String := ""
  labels : List (String × String) := []
  annotations : List (String × String) := []
  finalizers : List String := []
  deletionTimestamp : Option Nat := none
  ownerReferences : List OwnerRef := []
  deriving DecidableEq

/-- Modelled from apimachinery: `metav1.ListMeta` (value fields only). -/
structure ListMeta where
  resourceVersion : String := ""
  deriving DecidableEq

/-- Modelled from the spec: `NetworkInterfaceSpec` carries the node name,
the CIDR-suffixed address and the cloud NIC identifier (the type definition
file is not in src/; fields are those the controller reads and writes:
`NodeName`, `Address`, `ID`). -/
structure NetworkInterfaceSpec where
  nodeName : String := ""
  address : String := ""
  id : String := ""
  deriving DecidableEq

/-- Modelled from the spec: `NetworkInterfaceStatus` carries the MAC address
set after cloud provisioning. -/
structure NetworkInterfaceStatus where
  macAddress : String := ""
  deriving DecidableEq

/-- The `NetworkInterface` API object. -/
structure NetworkInterface where
  typeMeta : TypeMeta := {}
  meta : ObjectMeta := {}
  spec : NetworkInterfaceSpec := {}
  status : NetworkInterfaceStatus := {}
  deriving DecidableEq

/-- The `NetworkInterfaceList` API object; `items = none` models a nil slice. -/
structure NetworkInterfaceList where
  typeMeta : TypeMeta := {}
  listMeta : ListMeta := {}
  items : Option (List NetworkInterface) := none
  deriving DecidableEq

/-- Modelled from the spec: a static route entry (`PrivateNetworkRoute`);
its deep copy is a plain value copy, so the exact value fields are
immaterial. -/
structure PrivateNetworkRoute where
  dest : String := ""
  gateway : String := ""
  deriving DecidableEq

/-- `PrivateNetworkIPAMStatic`; `availableRanges = none` models a nil slice
(field `AvailableRanges []string`). -/
structure PrivateNetworkIPAMStatic where
  availableRanges : Option (List String) := none
  deriving DecidableEq

/-- `PrivateNetworkIPAM`; `static = none` models a nil
`*PrivateNetworkIPAMStatic`. -/
structure PrivateNetworkIPAM where
  static : Option PrivateNetworkIPAMStatic := none
  deriving DecidableEq

/-- Modelled from the spec: `PrivateNetworkSpec` carries the cloud network
identifier, zone and CIDR read by the controller, plus the optional IPAM
configuration and route list handled by the generated deep copy
(`IPAM *PrivateNetworkIPAM`, `Routes []PrivateNetworkRoute`). -/
structure PrivateNetworkSpec where
  id : String := ""
  zone : String := ""
  cidr : String := ""
  ipam : Option PrivateNetworkIPAM := none
  routes : Option (List PrivateNetworkRoute) := none
  deriving DecidableEq

/-- Modelled from the spec: `PrivateNetworkStatus` (plain value fields; its
deep copy is `*out = *in`). -/
structure PrivateNetworkStatus where
  raw : String := ""
  deriving DecidableEq

/-- The `PrivateNetwork` API object. -/
structure PrivateNetwork where
  typeMeta : TypeMeta := {}
  meta : ObjectMeta := {}
  spec : PrivateNetworkSpec := {}
  status : PrivateNetworkStatus := {}
  deriving DecidableEq

/-- The `PrivateNetworkList` API object; `items = none` models a nil slice. -/
structure PrivateNetworkList where
  typeMeta : TypeMeta := {}
  listMeta : ListMeta := {}
  items : Option (List PrivateNetwork) := none
  deriving DecidableEq

/-- Modelled from apimachinery: `ObjectMeta.DeepCopyInto` deep-copies the
map and slice fields and copies the value fields. -/
def ObjectMeta.deepCopyInto (inp : ObjectMeta) : ObjectMeta :=
  { name := inp.name
    generateName := inp.generateName
    labels := copyList inp.labels
    annotations := copyList inp.annotations
    finalizers := copyList inp.finalizers
    deletionTimestamp := inp.deletionTimestamp
    ownerReferences := copyList inp.ownerReferences }

/-- Modelled from apimachinery: `ListMeta.DeepCopyInto`. -/
def ListMeta.deepCopyInto (inp : ListMeta) : ListMeta :=
  { resourceVersion := inp.resourceVersion }

/-- Source `NetworkInterfaceSpec.DeepCopyInto`: `*out = *in`. -/
def NetworkInterfaceSpec.deepCopyInto (inp : NetworkInterfaceSpec) : NetworkInterfaceSpec :=
  { nodeName := inp.nodeName, address := inp.address, id := inp.id }

/-- Source `NetworkInterfaceSpec.DeepCopy`: nil receiver gives nil. -/
def NetworkInterfaceSpec.deepCopy : Option NetworkInterfaceSpec → Option NetworkInterfaceSpec
  | none => none
  | some inp => some inp.deepCopyInto

/-- Source `NetworkInterfaceStatus.DeepCopyInto`: `*out = *in`. -/
def NetworkInterfaceStatus.deepCopyInto (inp : NetworkInterfaceStatus) : NetworkInterfaceStatus :=
  { macAddress := inp.macAddress }

/-- Source `NetworkInterfaceStatus.DeepCopy`. -/
def NetworkInterfaceStatus.deepCopy : Option NetworkInterfaceStatus → Option NetworkInterfaceStatus
  | none => none
  | some inp => some inp.deepCopyInto

/-- Source `NetworkInterface.DeepCopyInto`. -/
def NetworkInterface.deepCopyInto (inp : NetworkInterface) : NetworkInterface :=
  { typeMeta := inp.typeMeta
    meta := inp.meta.deepCopyInto
    spec := inp.spec
    status := inp.status }

/-- Source `NetworkInterface.DeepCopy`. -/
def NetworkInterface.deepCopy : Option NetworkInterface → Option NetworkInterface
  | none => none
  | some inp => some inp.deepCopyInto

/-- Source `NetworkInterfaceList.DeepCopyInto` (nil `Items` stays nil,
otherwise a fresh slice of elementwise deep copies). -/
def NetworkInterfaceList.deepCopyInto (inp : NetworkInterfaceList) : NetworkInterfaceList :=
  { typeMeta := inp.typeMeta
    listMeta := inp.listMeta.deepCopyInto
    items :=
      match inp.items with
      | none => none
      | some l => some (l.map NetworkInterface.deepCopyInto) }

/-- Source `NetworkInterfaceList.DeepCopy`. -/
def NetworkInterfaceList.deepCopy : Option NetworkInterfaceList → Option NetworkInterfaceList
  | none => none
  | some inp => some inp.deepCopyInto

/-- Source `PrivateNetworkRoute.DeepCopyInto`: `*out = *in`. -/
def PrivateNetworkRoute.deepCopyInto (inp : PrivateNetworkRoute) : PrivateNetworkRoute :=
  { dest := inp.dest, gateway := inp.gateway }

/-- Source `PrivateNetworkRoute.DeepCopy`. -/
def PrivateNetworkRoute.deepCopy : Option PrivateNetworkRoute → Option PrivateNetworkRoute
  | none => none
  | some inp => some inp.deepCopyInto

/-- Source `PrivateNetworkIPAMStatic.DeepCopyInto`: nil `AvailableRanges`
stays nil, otherwise a fresh slice with the strings copied over. -/
def PrivateNetworkIPAMStatic.deepCopyInto (inp : PrivateNetworkIPAMStatic) : PrivateNetworkIPAMStatic :=
  { availableRanges :=
      match inp.availableRanges with
      | none => none
      | some rs => some (copyList rs) }

/-- Source `PrivateNetworkIPAMStatic.DeepCopy`. -/
def PrivateNetworkIPAMStatic.deepCopy : Option PrivateNetworkIPAMStatic → Option PrivateNetworkIPAMStatic
  | none => none
  | some inp => some inp.deepCopyInto

/-- Source `PrivateNetworkIPAM.DeepCopyInto`: nil `Static` stays nil,
otherwise a fresh deep copy is allocated. -/
def PrivateNetworkIPAM.deepCopyInto (inp : PrivateNetworkIPAM) : PrivateNetworkIPAM :=
  { static :=
      match inp.static with
      | none => none
      | some s => some s.deepCopyInto }

/-- Source `PrivateNetworkIPAM.DeepCopy`. -/
def PrivateNetworkIPAM.deepCopy : Option PrivateNetworkIPAM → Option PrivateNetworkIPAM
  | none => none
  | some inp => some inp.deepCopyInto

/-- Source `PrivateNetworkSpec.DeepCopyInto`: value fields copied, the
optional IPAM pointer deep-copied, the route slice copied elementwise. -/
def PrivateNetworkSpec.deepCopyInto (inp : PrivateNetworkSpec) : PrivateNetworkSpec :=
  { id := inp.id
    zone := inp.zone
    cidr := inp.cidr
    ipam :=
      match inp.ipam with
      | none => none
      | some i => some i.deepCopyInto
    routes :=
      match inp.routes with
      | none => none
      | some rs => some (copyList rs) }

/-- Source `PrivateNetworkSpec.DeepCopy`. -/
def PrivateNetworkSpec.deepCopy : Option PrivateNetworkSpec → Option PrivateNetworkSpec
  | none => none
  | some inp => some inp.deepCopyInto

/-- Source `PrivateNetworkStatus.DeepCopyInto`: `*out = *in`. -/
def PrivateNetworkStatus.deepCopyInto (inp : PrivateNetworkStatus) : PrivateNetworkStatus :=
  { raw := inp.raw }

/-- Source `PrivateNetworkStatus.DeepCopy`. -/
def PrivateNetworkStatus.deepCopy : Option PrivateNetworkStatus → Option PrivateNetworkStatus
  | none => none
  | some inp => some inp.deepCopyInto

/-- Source `PrivateNetwork.DeepCopyInto`. -/
def PrivateNetwork.deepCopyInto (inp : PrivateNetwork) : PrivateNetwork :=
  { typeMeta := inp.typeMeta
    meta := inp.meta.deepCopyInto
    spec := inp.spec.deepCopyInto
    status := inp.status }

/-- Source `PrivateNetwork.DeepCopy`: nil receiver gives nil, otherwise a
fresh deep copy. -/
def PrivateNetwork.deepCopy : Option PrivateNetwork → Option PrivateNetwork
  | none => none
  | some inp => some inp.deepCopyInto

/-- Source `PrivateNetworkList.DeepCopyInto`. -/
def PrivateNetworkList.deepCopyInto (inp : PrivateNetworkList) : PrivateNetworkList :=
  { typeMeta := inp.typeMeta
    listMeta := inp.listMeta.deepCopyInto
    items :=
      match inp.items with
      | none => none
      | some l => some (l.map PrivateNetwork.deepCopyInto) }

/-- Source `PrivateNetworkList.DeepCopy`. -/
def PrivateNetworkList.deepCopy : Option PrivateNetworkList → Option PrivateNetworkList
  | none => none
  | some inp => some inp.deepCopyInto

/-- A cluster node as read by the controller: its name and the
`Spec.ProviderID` string. -/
structure Node where
  name : String := ""
  providerID : String := ""
  deriving DecidableEq

/-- A cloud private NIC attachment (`instance.PrivateNIC`): its identifier,
the private network it belongs to, and its MAC address. -/
structure PrivateNIC where
  id : String := ""
  privateNetworkID : String := ""
  macAddress : String := ""
  deriving DecidableEq

/-- A cloud compute server (`instance.Server`): identifier, zone and the
list of private NIC attachments. -/
structure Server where
  id : String := ""
  zone : String := ""
  privateNics : List PrivateNIC := []
  deriving DecidableEq

/-- The pool prefix handle returned by `IPAM.NewPrefix` (field `Cidr`). -/
structure IpamPfx where
  cidr : String := ""
  deriving DecidableEq

/-- Object-store get errors: the code distinguishes not-found
(`apierrors.IsNotFound`, `client.IgnoreNotFound`) from any other error. -/
inductive GetErr where
  | notFound
  | other (msg : String)
  deriving DecidableEq

/-- Results of go-ipam release/delete calls: the code treats
`goipam.NotFoundError` as success and anything else as an error. -/
inductive PoolResult where
  | ok
  | notFound
  | err (msg : String)
  deriving DecidableEq

/-- One mutating external call issued by the reconciler, in program order. -/
inductive Act where
  | updatePN (pn : PrivateNetwork)
  | deleteNicObj (name : String)
  | releaseIP (cidr ip : String)
  | deleteCloudNic (zone pnicID serverID : String)
  | updateNicObj (nic : NetworkInterface)
  | delPfx (cidr : String)
  | createCloudNic (zone pnID serverID : String)
  | acquireIP (cidr : String)
  | createNicObj (nic : NetworkInterface)
  | updateNicStatus (nic : NetworkInterface)
  deriving DecidableEq

/-- The pair returned by `Reconcile`: the `ctrl.Result` (only its
`RequeueAfter` field is ever set, in seconds; `0` is the empty result) and
the error (`none` models a nil error). -/
structure ReconcileReturn where
  requeueAfter : Nat
  err : Option String
  deriving DecidableEq

/-- Outcome of one iteration of the per-node loop: fall through to the next
node, break out of the loop, or return from `Reconcile`. -/
inductive LoopOut where
  | next
  | brk
  | ret (r : ReconcileReturn)
  deriving DecidableEq

/-- Responses of the external collaborators during one reconciliation pass.
Each field models one call site; a pass re-issuing the same call would see
the same answer, which is exactly the "no intervening state change"
reading used by the idempotence property. -/
structure Env where
  getPN : Except GetErr PrivateNetwork
  newPfx : String → Except String IpamPfx
  updatePN : PrivateNetwork → Except String Unit
  listNicsByNetwork : String → Except String (List NetworkInterface)
  deleteNicObj : NetworkInterface → Except String Unit
  releaseIP : String → String → PoolResult
  getNode : String → Except GetErr Node
  getServer : String → String → Except String Server
  listServers : String → String → Except String (List Server)
  deleteCloudNic : String → String → String → Except String Unit
  updateNicObj : NetworkInterface → Except String Unit
  delPfx : String → PoolResult
  getPrivateNetwork : String → String → Except String Unit
  listNodes : Except String (List Node)
  listNicsForNode : String → String → Except String (List NetworkInterface)
  createCloudNic : String → String → String → Except String PrivateNIC
  setCtrlRef : PrivateNetwork → Except String Unit
  acquireIP : String → Except String String
  pfxIPNet : String → Except String String
  createNicObj : NetworkInterface → Except String Unit
  updateNicStatus : NetworkInterface → Except String Unit

/-- Go `controllerutil.ContainsFinalizer` on a finalizer list. -/
def containsFin (fins : List String) (f : String) : Bool :=
  fins.contains f

/-- Go `controllerutil.AddFinalizer`: append if absent. -/
def addFin (fins : List String) (f : String) : List String :=
  if fins.contains f then fins else fins ++ [f]

/-- Go `controllerutil.RemoveFinalizer`: drop every occurrence. -/
def removeFin (fins : List String) (f : String) : List String :=
  fins.filter (fun x => x != f)

/-- Add a finalizer to a PrivateNetwork. -/
def pnAddFin (pn : PrivateNetwork) (f : String) : PrivateNetwork :=
  { pn with meta := { pn.meta with finalizers := addFin pn.meta.finalizers f } }

/-- Remove a finalizer from a PrivateNetwork. -/
def pnRemoveFin (pn : PrivateNetwork) (f : String) : PrivateNetwork :=
  { pn with meta := { pn.meta with finalizers := removeFin pn.meta.finalizers f } }

/-- Remove a finalizer from a NetworkInterface. -/
def nicRemoveFin (nic : NetworkInterface) (f : String) : NetworkInterface :=
  { nic with meta := { nic.meta with finalizers := removeFin nic.meta.finalizers f } }

/-- The `(instanceID, zone)` pair extracted from a provider identifier. -/
structure ParsedID where
  instanceID : String
  zone : String
  deriving DecidableEq

/-- Leftmost-first match of the tail of `providerIDRegexp` against the
remainder after `scaleway://`: the lazy alternative
`(product)/(localization)/(uuid)` applies when at least two slashes are
present (fields split at the first two slashes, uuid greedy to the end),
otherwise the bare `(uuid)` alternative captures the whole remainder.
Newlines inside a provider identifier (which Go's `.` would not cross) are
not modelled. -/
def parseRest (rest : List Char) : ParsedID :=
  match splitFirstSlash rest with
  | none => { instanceID := String.mk rest, zone := "" }
  | some (_, afterFirst) =>
    match splitFirstSlash afterFirst with
    | none => { instanceID := String.mk rest, zone := "" }
    | some (loc, uuid) => { instanceID := String.mk uuid, zone := String.mk loc }

/-- The provider-identifier parse performed by `getServerFromNode`:
`instanceID` and `zone` start empty and are filled from the regexp capture
groups; an empty identifier or one not containing `scaleway://` leaves
both empty. -/
def parseProviderID (s : String) : ParsedID :=
  if s = "" then { instanceID := "", zone := "" }
  else
    match restAfter ("scaleway://".data) s.data with
    | none => { instanceID := "", zone := "" }
    | some rest => parseRest rest

/-- The direct by-identifier lookup of `getServerFromNode`: attempted only
when a non-empty instance identifier was parsed, and its failure is
swallowed (the code falls through to the listing fallback). -/
def directLookup (env : Env) (zone instanceID : String) : Option Server :=
  if instanceID = "" then none
  else
    match env.getServer zone instanceID with
    | .ok s => some s
    | .error _ => none

/-- The name-based fallback of `getServerFromNode`: list servers filtered
by zone and node name; succeed only on exactly one match. -/
def fallbackLookup (env : Env) (zone nodeName : String) : Except String Server :=
  match env.listServers zone nodeName with
  | .error e => .error e
  | .ok servers =>
    if h : servers.length = 1 then .ok (servers.get ⟨0, by omega⟩)
    else .error ("found " ++ toString servers.length ++ " servers with name " ++ nodeName ++ " instead of 1")

/-- Source `PrivateNetworkReconciler.getServerFromNode`. -/
def getServerFromNode (env : Env) (node : Node) : Except String Server :=
  match directLookup env (parseProviderID node.providerID).zone (parseProviderID node.providerID).instanceID with
  | some s => .ok s
  | none => fallbackLookup env (parseProviderID node.providerID).zone node.name

/-- First private NIC of the server attached to the given private network,
as the Go loop with `break` computes it (`none` when there is none). -/
def findPNic (pnics : List PrivateNIC) (pnID : String) : Option PrivateNIC :=
  pnics.find? (fun p => p.privateNetworkID == pnID)

/-- The `privateNicID` string computed by the deletion sequencer: the
identifier of the first matching private NIC, empty when none matches. -/
def findPNicID (pnics : List PrivateNIC) (pnID : String) : String :=
  match findPNic pnics pnID with
  | some p => p.id
  | none => ""

/-- The NetworkInterface built by
`constructNetworkInterfaceForPrivateNetwork` once the controller reference
is set: generated name, inherited annotations and labels plus the two
identifying labels, controller owner reference, and both finalizers. -/
def mkNicBase (pn : PrivateNetwork) (nodeName : String) : NetworkInterface :=
  { typeMeta := {}
    meta :=
      { name := ""
        generateName := pn.meta.name ++ "-"
        labels := setKV (setKV (copyInto [] pn.meta.labels) privateNetworkLabel pn.meta.name) nodeLabel nodeName
        annotations := copyInto [] pn.meta.annotations
        finalizers := addFin (addFin [] finalizerName) ipFinalizerName
        deletionTimestamp := none
        ownerReferences := [{ name := pn.meta.name, controller := true }] }
    spec := { nodeName := nodeName, address := "", id := "" }
    status := { macAddress := "" } }

/-- Source `constructNetworkInterfaceForPrivateNetwork`: fails only when
`SetControllerReference` fails. -/
def constructNetworkInterfaceForPrivateNetwork (env : Env) (pn : PrivateNetwork) (nodeName : String) :
    Except String NetworkInterface :=
  match env.setCtrlRef pn with
  | .error e => .error e
  | .ok _ => .ok (mkNicBase pn nodeName)

/-- The NetworkInterface with `Spec.Address` and `Spec.ID` filled in before
`Client.Create`. -/
def setAddrID (nic : NetworkInterface) (addr pid : String) : NetworkInterface :=
  { nic with spec := { nic.spec with address := addr, id := pid } }

/-- The NetworkInterface with `Status.MacAddress` filled in before the
status update. -/
def withMac (nic : NetworkInterface) (mac : String) : NetworkInterface :=
  { nic with status := { macAddress := mac } }

/-- Deletion sequencer, per child: remove the address-specific finalizer
and persist the child (source lines around `RemoveFinalizer(&nic,
ipFinalizerName)`). -/
def finishNic (env : Env) (acts : List Act) (nic : NetworkInterface) :
    List Act × Option ReconcileReturn :=
  match env.updateNicObj (nicRemoveFin nic ipFinalizerName) with
  | .error e => (acts ++ [Act.updateNicObj (nicRemoveFin nic ipFinalizerName)], some ⟨0, some e⟩)
  | .ok _ => (acts ++ [Act.updateNicObj (nicRemoveFin nic ipFinalizerName)], none)

/-- Deletion sequencer, per child: resolve the node's server and delete a
matching cloud private NIC if one is still attached, then finish the
child. -/
def nicServerCleanup (env : Env) (pn : PrivateNetwork) (acts : List Act) (nic : NetworkInterface) (node : Node) :
    List Act × Option ReconcileReturn :=
  match getServerFromNode env node with
  | .error e => (acts, some ⟨0, some e⟩)
  | .ok server =>
    if findPNicID server.privateNics pn.spec.id = "" then finishNic env acts nic
    else
      match env.deleteCloudNic server.zone (findPNicID server.privateNics pn.spec.id) server.id with
      | .error e =>
        (acts ++ [Act.deleteCloudNic server.zone (findPNicID server.privateNics pn.spec.id) server.id],
         some ⟨0, some e⟩)
      | .ok _ =>
        finishNic env
          (acts ++ [Act.deleteCloudNic server.zone (findPNicID server.privateNics pn.spec.id) server.id])
          nic

/-- Deletion sequencer, per child, after the address release: fetch the
child's node; a missing node skips server resolution and cloud NIC
deletion, any other get error aborts the pass. -/
def processNicCont (env : Env) (pn : PrivateNetwork) (acts : List Act) (nic : NetworkInterface) :
    List Act × Option ReconcileReturn :=
  match env.getNode nic.spec.nodeName with
  | .error (GetErr.other e) => (acts, some ⟨0, some e⟩)
  | .error GetErr.notFound => finishNic env acts nic
  | .ok node => nicServerCleanup env pn acts nic node

/-- Deletion sequencer, per child (body of the loop over
`nicsList.Items`): request deletion of children not yet marked; for marked
children whose generic finalizer is gone, release the address (not-found
tolerated) and continue with node/server cleanup; marked children still
carrying the generic finalizer are left alone. -/
def processNic (env : Env) (pn : PrivateNetwork) (nic : NetworkInterface) :
    List Act × Option ReconcileReturn :=
  if nic.meta.deletionTimestamp.isNone then
    match env.deleteNicObj nic with
    | .error e => ([Act.deleteNicObj nic.meta.name], some ⟨0, some e⟩)
    | .ok _ => ([Act.deleteNicObj nic.meta.name], none)
  else
    if containsFin nic.meta.finalizers finalizerName then ([], none)
    else
      match env.releaseIP pn.spec.cidr (addrIP nic.spec.address) with
      | PoolResult.err e =>
        ([Act.releaseIP pn.spec.cidr (addrIP nic.spec.address)], some ⟨0, some e⟩)
      | _ => processNicCont env pn [Act.releaseIP pn.spec.cidr (addrIP nic.spec.address)] nic

/-- The loop of the deletion sequencer over all listed children, stopping
at the first early return. -/
def processNics (env : Env) (pn : PrivateNetwork) : List NetworkInterface → List Act × Option ReconcileReturn
  | [] => ([], none)
  | nic :: rest =>
    match processNic env pn nic with
    | (acts, some r) => (acts, some r)
    | (acts, none) =>
      match processNics env pn rest with
      | (acts2, o) => (acts ++ acts2, o)

/-- Network-level cleanup after the delete-prefix call succeeded or
reported not-found: drop the PrivateNetwork's generic finalizer and
persist it. -/
def finalizeAndPersistPN (env : Env) (pn : PrivateNetwork) (acts : List Act) :
    ReconcileReturn × List Act :=
  match env.updatePN (pnRemoveFin pn finalizerName) with
  | .error e => (⟨0, some e⟩, acts ++ [Act.updatePN (pnRemoveFin pn finalizerName)])
  | .ok _ => (⟨0, none⟩, acts ++ [Act.updatePN (pnRemoveFin pn finalizerName)])

/-- Network-level cleanup of the deletion sequencer: delete the address
prefix (not-found tolerated), then drop and persist the generic finalizer. -/
def networkCleanup (env : Env) (pn : PrivateNetwork) (acts : List Act) :
    ReconcileReturn × List Act :=
  match env.delPfx pn.spec.cidr with
  | PoolResult.err e => (⟨0, some e⟩, acts ++ [Act.delPfx pn.spec.cidr])
  | _ => finalizeAndPersistPN env pn (acts ++ [Act.delPfx pn.spec.cidr])

/-- The deletion branch of `Reconcile`: with the generic finalizer present,
list the children, run the per-child sequencer, and either perform
network-level cleanup (no children) or reschedule after the fixed delay
(children remain); without the finalizer there is nothing to do. -/
def delBranch (env : Env) (pn : PrivateNetwork) : ReconcileReturn × List Act :=
  if containsFin pn.meta.finalizers finalizerName then
    match env.listNicsByNetwork pn.meta.name with
    | .error e => (⟨0, some e⟩, [])
    | .ok nics =>
      match processNics env pn nics with
      | (acts, some r) => (r, acts)
      | (acts, none) =>
        if nics.length = 0 then networkCleanup env pn acts
        else (⟨RequeueDuration, none⟩, acts)
  else (⟨0, none⟩, [])

/-- Interface synchronizer: persist the freshly built NetworkInterface,
then persist its MAC address as a separate status update. -/
def nicPersistFlow (env : Env) (acts : List Act) (nic : NetworkInterface) (pnic : PrivateNIC) :
    List Act × LoopOut :=
  match env.createNicObj nic with
  | .error e => (acts ++ [Act.createNicObj nic], LoopOut.ret ⟨RequeueDuration, some e⟩)
  | .ok _ =>
    match env.updateNicStatus (withMac nic pnic.macAddress) with
    | .error e =>
      (acts ++ [Act.createNicObj nic, Act.updateNicStatus (withMac nic pnic.macAddress)],
       LoopOut.ret ⟨RequeueDuration, some e⟩)
    | .ok _ =>
      (acts ++ [Act.createNicObj nic, Act.updateNicStatus (withMac nic pnic.macAddress)],
       LoopOut.next)

/-- Interface synchronizer: build the NetworkInterface, allocate an
address, suffix it with the prefix's mask length, record the cloud NIC
identifier, and persist. -/
def createNicFlow (env : Env) (pn : PrivateNetwork) (pfx : IpamPfx) (node : Node) (pnic : PrivateNIC) (acts : List Act) :
    List Act × LoopOut :=
  match constructNetworkInterfaceForPrivateNetwork env pn node.name with
  | .error e => (acts, LoopOut.ret ⟨RequeueDuration, some e⟩)
  | .ok nic0 =>
    match env.acquireIP pfx.cidr with
    | .error e => (acts ++ [Act.acquireIP pfx.cidr], LoopOut.ret ⟨RequeueDuration, some e⟩)
    | .ok ip =>
      match env.pfxIPNet pfx.cidr with
      | .error e => (acts ++ [Act.acquireIP pfx.cidr], LoopOut.ret ⟨RequeueDuration, some e⟩)
      | .ok ipnetStr =>
        nicPersistFlow env (acts ++ [Act.acquireIP pfx.cidr])
          (setAddrID nic0 (ip ++ "/" ++ maskPart ipnetStr) pnic.id) pnic

/-- Interface synchronizer, after the cloud NIC is ensured: more than one
existing NetworkInterface aborts the pass with a reschedule (the shadowed
`err` there is nil); exactly one means nothing to do; zero triggers
creation. -/
def afterNic (env : Env) (pn : PrivateNetwork) (pfx : IpamPfx) (node : Node)
    (nics : List NetworkInterface) (pnic : PrivateNIC) (acts : List Act) :
    List Act × LoopOut :=
  if nics.length > 1 then (acts, LoopOut.ret ⟨RequeueDuration, none⟩)
  else if nics.length = 0 then createNicFlow env pn pfx node pnic acts
  else (acts, LoopOut.next)

/-- Interface synchronizer for one node (body of the loop over
`nodesList.Items`): list the pair's NetworkInterfaces, resolve the node to
a server (failure logs and breaks out of the loop), reuse an attached
private NIC for this network or create one, then reconcile the object
count. -/
def syncNode (env : Env) (pn : PrivateNetwork) (pfx : IpamPfx) (node : Node) :
    List Act × LoopOut :=
  match env.listNicsForNode pn.meta.name node.name with
  | .error e => ([], LoopOut.ret ⟨RequeueDuration, some e⟩)
  | .ok nics =>
    match getServerFromNode env node with
    | .error _ => ([], LoopOut.brk)
    | .ok server =>
      match findPNic server.privateNics pn.spec.id with
      | some pnic => afterNic env pn pfx node nics pnic []
      | none =>
        match env.createCloudNic server.zone pn.spec.id server.id with
        | .error e =>
          ([Act.createCloudNic server.zone pn.spec.id server.id], LoopOut.ret ⟨RequeueDuration, some e⟩)
        | .ok pnic =>
          afterNic env pn pfx node nics pnic [Act.createCloudNic server.zone pn.spec.id server.id]

/-- The loop of the interface synchronizer over all cluster nodes; a break
falls through to the final success return. -/
def syncNodes (env : Env) (pn : PrivateNetwork) (pfx : IpamPfx) : List Node → List Act × Option ReconcileReturn
  | [] => ([], none)
  | node :: rest =>
    match syncNode env pn pfx node with
    | (acts, LoopOut.ret r) => (acts, some r)
    | (acts, LoopOut.brk) => (acts, none)
    | (acts, LoopOut.next) =>
      match syncNodes env pn pfx rest with
      | (acts2, o) => (acts ++ acts2, o)

/-- The non-deleting branch after the finalizer is ensured: confirm the
network at the cloud provider, list the nodes, and run the synchronizer;
the provider and node-listing failures carry the fixed reschedule together
with the error. -/
def syncBranch (env : Env) (pn : PrivateNetwork) (pfx : IpamPfx) (acts0 : List Act) :
    ReconcileReturn × List Act :=
  match env.getPrivateNetwork pn.spec.zone pn.spec.id with
  | .error e => (⟨RequeueDuration, some e⟩, acts0)
  | .ok _ =>
    match env.listNodes with
    | .error e => (⟨RequeueDuration, some e⟩, acts0)
    | .ok nodes =>
      match syncNodes env pn pfx nodes with
      | (acts, some r) => (r, acts0 ++ acts)
      | (acts, none) => (⟨0, none⟩, acts0 ++ acts)

/-- The non-deleting branch of `Reconcile`: add and persist the generic
finalizer when absent, then synchronize. -/
def normalBranch (env : Env) (pn : PrivateNetwork) (pfx : IpamPfx) : ReconcileReturn × List Act :=
  if containsFin pn.meta.finalizers finalizerName then syncBranch env pn pfx []
  else
    match env.updatePN (pnAddFin pn finalizerName) with
    | .error e => (⟨0, some e⟩, [Act.updatePN (pnAddFin pn finalizerName)])
    | .ok _ => syncBranch env (pnAddFin pn finalizerName) pfx [Act.updatePN (pnAddFin pn finalizerName)]

/-- Source `PrivateNetworkReconciler.Reconcile`: fetch the PrivateNetwork
(ignoring not-found), ensure the pool prefix for its CIDR, then branch on
the deletion timestamp. -/
def reconcile (env : Env) : ReconcileReturn × List Act :=
  match env.getPN with
  | .error GetErr.notFound => (⟨0, none⟩, [])
  | .error (GetErr.other e) => (⟨0, some e⟩, [])
  | .ok pn =>
    match env.newPfx pn.spec.cidr with
    | .error e => (⟨0, some e⟩, [])
    | .ok pfx =>
      if pn.meta.deletionTimestamp.isNone then normalBranch env pn pfx
      else delBranch env pn

/-- Trace discriminator: is this a delete-prefix pool call? -/
def Act.isDelPfx : Act → Bool
  | Act.delPfx _ => true
  | _ => false

/-- Trace discriminator: is this a PrivateNetwork persist? -/
def Act.isUpdatePN : Act → Bool
  | Act.updatePN _ => true
  | _ => false

/-- Trace discriminator: is this a NetworkInterface object creation? -/
def Act.isCreateNicObj : Act → Bool
  | Act.createNicObj _ => true
  | _ => false

/-- Trace discriminator: is this a cloud private NIC creation? -/
def Act.isCreateCloudNic : Act → Bool
  | Act.createCloudNic _ _ _ => true
  | _ => false

/-- Trace discriminator: is this a NetworkInterface object deletion
request? -/
def Act.isDeleteNicObj : Act → Bool
  | Act.deleteNicObj _ => true
  | _ => false

/-- An environment whose collaborators all answer inertly; concrete
scenarios override the fields they exercise. -/
def baseEnv : Env :=
  { getPN := .error GetErr.notFound
    newPfx := fun c => .ok { cidr := c }
    updatePN := fun _ => .ok ()
    listNicsByNetwork := fun _ => .ok []
    deleteNicObj := fun _ => .ok ()
    releaseIP := fun _ _ => PoolResult.ok
    getNode := fun _ => .error GetErr.notFound
    getServer := fun _ _ => .error "no server"
    listServers := fun _ _ => .ok []
    deleteCloudNic := fun _ _ _ => .ok ()
    updateNicObj := fun _ => .ok ()
    delPfx := fun _ => PoolResult.ok
    getPrivateNetwork := fun _ _ => .ok ()
    listNodes := .ok []
    listNicsForNode := fun _ _ => .ok []
    createCloudNic := fun _ _ _ => .error "no api"
    setCtrlRef := fun _ => .ok ()
    acquireIP := fun _ => .ok "10.0.0.1"
    pfxIPNet := fun c => .ok c
    createNicObj := fun _ => .ok ()
    updateNicStatus := fun _ => .ok () }

theorem copyList_eq {α : Type} (l : List α) : copyList l = l := by
  induction l with
  | nil => rfl
  | cons a t ih => simp [copyList, ih]

theorem objectMeta_copy_eq (m : ObjectMeta) : m.deepCopyInto = m := by
  cases m
  simp [ObjectMeta.deepCopyInto, copyList_eq]

theorem listMeta_copy_eq (m : ListMeta) : m.deepCopyInto = m := by
  cases m
  rfl

theorem networkInterface_copy_eq (x : NetworkInterface) : x.deepCopyInto = x := by
  cases x
  simp [NetworkInterface.deepCopyInto, objectMeta_copy_eq]

theorem ipamStatic_copy_eq (x : PrivateNetworkIPAMStatic) :
    x.deepCopyInto = x := by
  cases x with
  | mk r =>
    cases r with
    | none => rfl
    | some rs => simp [PrivateNetworkIPAMStatic.deepCopyInto, copyList_eq]

theorem ipam_copy_eq (x : PrivateNetworkIPAM) : x.deepCopyInto = x := by
  cases x with
  | mk s =>
    cases s with
    | none => rfl
    | some st => simp [PrivateNetworkIPAM.deepCopyInto, ipamStatic_copy_eq]

theorem pnSpec_copy_eq (x : PrivateNetworkSpec) : x.deepCopyInto = x := by
  cases x with
  | mk i z c ip rs =>
    cases ip with
    | none =>
      cases rs with
      | none => rfl
      | some l => simp [PrivateNetworkSpec.deepCopyInto, copyList_eq]
    | some ipam =>
      cases rs with
      | none => simp [PrivateNetworkSpec.deepCopyInto, ipam_copy_eq]
      | some l =>
        simp [PrivateNetworkSpec.deepCopyInto, ipam_copy_eq, copyList_eq]

theorem pn_copy_eq (x : PrivateNetwork) : x.deepCopyInto = x := by
  cases x
  simp [PrivateNetwork.deepCopyInto, objectMeta_copy_eq, pnSpec_copy_eq]

theorem nicList_copy_eq (x : NetworkInterfaceList) : x.deepCopyInto = x := by
  cases x with
  | mk t m it =>
    cases it with
    | none => simp [NetworkInterfaceList.deepCopyInto, listMeta_copy_eq]
    | some l =>
      simp [NetworkInterfaceList.deepCopyInto, listMeta_copy_eq]
      induction l with
      | nil => rfl
      | cons a t2 ih => simp [networkInterface_copy_eq, ih]

theorem pnList_copy_eq (x : PrivateNetworkList) : x.deepCopyInto = x := by
  cases x with
  | mk t m it =>
    cases it with
    | none => simp [PrivateNetworkList.deepCopyInto, listMeta_copy_eq]
    | some l =>
      simp [PrivateNetworkList.deepCopyInto, listMeta_copy_eq]
      induction l with
      | nil => rfl
      | cons a t2 ih => simp [pn_copy_eq, ih]

/-- C10: for every generated API type, DeepCopy of a nil receiver returns
nil, and DeepCopy of a non-nil receiver returns an object structurally
equal to the receiver, including the deep copies of the optional static
address-range list and of the route list when present. -/
theorem c10_deepcopy_structural :
    (NetworkInterface.deepCopy none = none ∧
      ∀ x, NetworkInterface.deepCopy (some x) = some x) ∧
    (NetworkInterfaceList.deepCopy none = none ∧
      ∀ x, NetworkInterfaceList.deepCopy (some x) = some x) ∧
    (NetworkInterfaceSpec.deepCopy none = none ∧
      ∀ x, NetworkInterfaceSpec.deepCopy (some x) = some x) ∧
    (NetworkInterfaceStatus.deepCopy none = none ∧
      ∀ x, NetworkInterfaceStatus.deepCopy (some x) = some x) ∧
    (PrivateNetwork.deepCopy none = none ∧
      ∀ x, PrivateNetwork.deepCopy (some x) = some x) ∧
    (PrivateNetworkList.deepCopy none = none ∧
      ∀ x, PrivateNetworkList.deepCopy (some x) = some x) ∧
    (PrivateNetworkSpec.deepCopy none = none ∧
      ∀ x, PrivateNetworkSpec.deepCopy (some x) = some x) ∧
    (PrivateNetworkStatus.deepCopy none = none ∧
      ∀ x, PrivateNetworkStatus.deepCopy (some x) = some x) ∧
    (PrivateNetworkIPAM.deepCopy none = none ∧
      ∀ x, PrivateNetworkIPAM.deepCopy (some x) = some x) ∧
    (PrivateNetworkIPAMStatic.deepCopy none = none ∧
      ∀ x, PrivateNetworkIPAMStatic.deepCopy (some x) = some x) ∧
    (PrivateNetworkRoute.deepCopy none = none ∧
      ∀ x, PrivateNetworkRoute.deepCopy (some x) = some x) := by
  refine ⟨⟨rfl, ?_⟩, ⟨rfl, ?_⟩, ⟨rfl, ?_⟩, ⟨rfl, ?_⟩, ⟨rfl, ?_⟩, ⟨rfl, ?_⟩, ⟨rfl, ?_⟩,
    ⟨rfl, ?_⟩, ⟨rfl, ?_⟩, ⟨rfl, ?_⟩, ⟨rfl, ?_⟩⟩
  · intro x; simp [NetworkInterface.deepCopy, networkInterface_copy_eq]
  · intro x; simp [NetworkInterfaceList.deepCopy, nicList_copy_eq]
  · intro x; cases x; rfl
  · intro x; cases x; rfl
  · intro x; simp [PrivateNetwork.deepCopy, pn_copy_eq]
  · intro x; simp [PrivateNetworkList.deepCopy, pnList_copy_eq]
  · intro x; simp [PrivateNetworkSpec.deepCopy, pnSpec_copy_eq]
  · intro x; cases x; rfl
  · intro x; simp [PrivateNetworkIPAM.deepCopy, ipam_copy_eq]
  · intro x; simp [PrivateNetworkIPAMStatic.deepCopy, ipamStatic_copy_eq]
  · intro x; cases x; rfl

theorem contains_removeFin (fins : List String) (f : String) :
    containsFin (removeFin fins f) f = false := by
  simp [containsFin, removeFin]

/-- C7: node resolution falls back to name-based lookup whenever the
provider identifier is empty (it then parses to an empty instance
identifier), fails to parse to a non-empty instance identifier, or the
direct by-identifier lookup errors; the fallback returns a server exactly
when the zone-and-name-filtered listing has exactly one entry, and
otherwise fails with the count-mismatch error naming the count and the
node name. -/
theorem c7_node_resolution_fallback (env : Env) (node : Node)
    (hfb : (parseProviderID node.providerID).instanceID = "" ∨
      ∃ e, env.getServer (parseProviderID node.providerID).zone
        (parseProviderID node.providerID).instanceID = Except.error e) :
    parseProviderID "" = { instanceID := "", zone := "" } ∧
    (∀ e, env.listServers (parseProviderID node.providerID).zone node.name = Except.error e →
      getServerFromNode env node = Except.error e) ∧
    (∀ l, env.listServers (parseProviderID node.providerID).zone node.name = Except.ok l →
      (∀ h : l.length = 1, getServerFromNode env node = Except.ok (l.get ⟨0, by omega⟩)) ∧
      (l.length ≠ 1 →
        getServerFromNode env node = Except.error
          ("found " ++ toString l.length ++ " servers with name " ++ node.name ++ " instead of 1"))) := by
  have hd : directLookup env (parseProviderID node.providerID).zone
      (parseProviderID node.providerID).instanceID = none := by
    rcases hfb with h | ⟨e, he⟩
    · simp [directLookup, h]
    · by_cases hi : (parseProviderID node.providerID).instanceID = ""
      · simp [directLookup, hi]
      · simp [directLookup, hi, he]
  have hg : getServerFromNode env node =
      fallbackLookup env (parseProviderID node.providerID).zone node.name := by
    simp [getServerFromNode, hd]
  refine ⟨rfl, ?_, ?_⟩
  · intro e he
    rw [hg]
    simp [fallbackLookup, he]
  · intro l hl
    constructor
    · intro h
      rw [hg]
      simp only [fallbackLookup, hl]
      rw [dif_pos h]
    · intro h
      rw [hg]
      simp only [fallbackLookup, hl]
      rw [dif_neg h]

/-- Node used by the C7 scenario: empty provider identifier. -/
def nodeC7 : Node := { name := "node-x", providerID := "" }

/-- Environment for the C7 scenario: two servers carry the node's name. -/
def envC7 : Env :=
  { baseEnv with listServers := fun _ _ => .ok [{ id := "s1" }, { id := "s2" }] }

/-- C7 witness: with an empty provider identifier and a two-server listing,
resolution fails with the count-mismatch error. -/
theorem c7_witness :
    ((parseProviderID nodeC7.providerID).instanceID = "" ∨
      ∃ e, envC7.getServer (parseProviderID nodeC7.providerID).zone
        (parseProviderID nodeC7.providerID).instanceID = Except.error e) ∧
    (∀ l, envC7.listServers (parseProviderID nodeC7.providerID).zone nodeC7.name = Except.ok l →
      (∀ h : l.length = 1, getServerFromNode envC7 nodeC7 = Except.ok (l.get ⟨0, by omega⟩)) ∧
      (l.length ≠ 1 →
        getServerFromNode envC7 nodeC7 = Except.error
          ("found " ++ toString l.length ++ " servers with name " ++ nodeC7.name ++ " instead of 1"))) :=
  ⟨Or.inl rfl, (c7_node_resolution_fallback envC7 nodeC7 (Or.inl rfl)).2.2⟩

/-- C6: during teardown, an address release answered not-found continues
past the call exactly as a successful release does, while any other pool
error aborts the pass with that error; likewise a not-found on deleting
the network's address prefix proceeds to the finalizer removal, while any
other pool error aborts with that error. -/
theorem c6_notfound_is_success :
    (∀ (env : Env) (pn : PrivateNetwork) (nic : NetworkInterface),
      nic.meta.deletionTimestamp.isNone = false →
      containsFin nic.meta.finalizers finalizerName = false →
      env.releaseIP pn.spec.cidr (addrIP nic.spec.address) = PoolResult.notFound →
      processNic env pn nic =
        processNicCont env pn [Act.releaseIP pn.spec.cidr (addrIP nic.spec.address)] nic) ∧
    (∀ (env : Env) (pn : PrivateNetwork) (nic : NetworkInterface) (e : String),
      nic.meta.deletionTimestamp.isNone = false →
      containsFin nic.meta.finalizers finalizerName = false →
      env.releaseIP pn.spec.cidr (addrIP nic.spec.address) = PoolResult.err e →
      processNic env pn nic =
        ([Act.releaseIP pn.spec.cidr (addrIP nic.spec.address)], some ⟨0, some e⟩)) ∧
    (∀ (env : Env) (pn : PrivateNetwork) (acts : List Act),
      env.delPfx pn.spec.cidr = PoolResult.notFound →
      networkCleanup env pn acts = finalizeAndPersistPN env pn (acts ++ [Act.delPfx pn.spec.cidr])) ∧
    (∀ (env : Env) (pn : PrivateNetwork) (acts : List Act) (e : String),
      env.delPfx pn.spec.cidr = PoolResult.err e →
      networkCleanup env pn acts = (⟨0, some e⟩, acts ++ [Act.delPfx pn.spec.cidr])) := by
  refine ⟨?_, ?_, ?_, ?_⟩
  · intro env pn nic h1 h2 h3
    simp [processNic, h1, h2, h3]
  · intro env pn nic e h1 h2 h3
    simp [processNic, h1, h2, h3]
  · intro env pn acts h
    simp [networkCleanup, h]
  · intro env pn acts e h
    simp [networkCleanup, h]

/-- Deletion-marked child without the generic finalizer, used by the C6 and
C9 scenarios. -/
def nicC6 : NetworkInterface :=
  { meta := { name := "nic-c6", finalizers := [], deletionTimestamp := some 3 }
    spec := { nodeName := "node-gone", address := "10.0.0.9/24" } }

/-- Parent PrivateNetwork used by the C6 and C9 scenarios. -/
def pnC6 : PrivateNetwork :=
  { meta := { name := "pn-c6" }, spec := { cidr := "10.0.0.0/24" } }

/-- Environment whose pool answers not-found on release and delete. -/
def envC6nf : Env :=
  { baseEnv with
    releaseIP := fun _ _ => PoolResult.notFound
    delPfx := fun _ => PoolResult.notFound }

/-- Environment whose pool fails hard on release and delete. -/
def envC6err : Env :=
  { baseEnv with
    releaseIP := fun _ _ => PoolResult.err "pool down"
    delPfx := fun _ => PoolResult.err "pool down" }

/-- C6 witness: the four behaviours at concrete inputs. -/
theorem c6_witness :
    processNic envC6nf pnC6 nicC6 =
      processNicCont envC6nf pnC6 [Act.releaseIP pnC6.spec.cidr (addrIP nicC6.spec.address)] nicC6 ∧
    processNic envC6err pnC6 nicC6 =
      ([Act.releaseIP pnC6.spec.cidr (addrIP nicC6.spec.address)], some ⟨0, some "pool down"⟩) ∧
    networkCleanup envC6nf pnC6 [] =
      finalizeAndPersistPN envC6nf pnC6 ([] ++ [Act.delPfx pnC6.spec.cidr]) ∧
    networkCleanup envC6err pnC6 [] = (⟨0, some "pool down"⟩, [] ++ [Act.delPfx pnC6.spec.cidr]) :=
  ⟨c6_notfound_is_success.1 envC6nf pnC6 nicC6 rfl rfl rfl,
   c6_notfound_is_success.2.1 envC6err pnC6 nicC6 "pool down" rfl rfl rfl,
   c6_notfound_is_success.2.2.1 envC6nf pnC6 [] rfl,
   c6_notfound_is_success.2.2.2 envC6err pnC6 [] "pool down" rfl⟩

/-- C9: during teardown of a deletion-marked child whose generic finalizer
is already cleared, a not-found answer for the child's node is treated as
success: the pass skips server resolution and cloud NIC deletion (the
trace holds only the release and the child persist) and still removes the
child's address-specific finalizer and persists the child, whose finalizer
list then no longer blocks removal. -/
theorem c9_missing_node_teardown (env : Env) (pn : PrivateNetwork) (nic : NetworkInterface)
    (hdel : nic.meta.deletionTimestamp.isNone = false)
    (hfin : containsFin nic.meta.finalizers finalizerName = false)
    (hrel : env.releaseIP pn.spec.cidr (addrIP nic.spec.address) = PoolResult.ok)
    (hnode : env.getNode nic.spec.nodeName = Except.error GetErr.notFound)
    (hupd : env.updateNicObj (nicRemoveFin nic ipFinalizerName) = Except.ok ()) :
    processNic env pn nic =
      ([Act.releaseIP pn.spec.cidr (addrIP nic.spec.address),
        Act.updateNicObj (nicRemoveFin nic ipFinalizerName)], none) ∧
    containsFin (nicRemoveFin nic ipFinalizerName).meta.finalizers ipFinalizerName = false := by
  constructor
  · simp [processNic, hdel, hfin, hrel, processNicCont, hnode, finishNic, hupd]
  · simpa [nicRemoveFin] using contains_removeFin nic.meta.finalizers ipFinalizerName

/-- C9 witness: the behaviour at a concrete child whose node is gone. -/
theorem c9_witness :
    processNic baseEnv pnC6 nicC6 =
      ([Act.releaseIP pnC6.spec.cidr (addrIP nicC6.spec.address),
        Act.updateNicObj (nicRemoveFin nicC6 ipFinalizerName)], none) ∧
    containsFin (nicRemoveFin nicC6 ipFinalizerName).meta.finalizers ipFinalizerName = false :=
  c9_missing_node_teardown baseEnv pnC6 nicC6 rfl rfl rfl rfl rfl

/-- PrivateNetwork used by the C3 and C5 scenarios: not deleting, generic
finalizer present. -/
def pnC5 : PrivateNetwork :=
  { meta := { name := "pn-a", finalizers := ["scaleway.com/finalizer"] }
    spec := { id := "netid", zone := "fr-par-1", cidr := "10.0.0.0/24" } }

/-- Environment for the C5 counterexample: the cloud lookup of the private
network fails. -/
def envC5 : Env :=
  { baseEnv with
    getPN := .ok pnC5
    getPrivateNetwork := fun _ _ => .error "vpc api error" }

/-- C5 counterexample: when the provider lookup of the private network
fails, the pass does not trade the error for the reschedule — it returns
the fixed reschedule together with the error, so its error is not nil. -/
theorem c5_counterexample :
    reconcile envC5 = (⟨RequeueDuration, some "vpc api error"⟩, []) ∧
    (reconcile envC5).1.err ≠ none := by
  constructor
  · rfl
  · decide

/-- C5 amended: when a PrivateNetwork is not marked for deletion and the
cloud provider's lookup of the private network by zone and ID fails, the
pass returns the fixed 30-second reschedule together with the lookup
error. -/
theorem c5_requeue_with_error (env : Env) (pn : PrivateNetwork) (pfx : IpamPfx) (e : String)
    (hget : env.getPN = Except.ok pn)
    (hpfx : env.newPfx pn.spec.cidr = Except.ok pfx)
    (hdel : pn.meta.deletionTimestamp.isNone = true)
    (hfin : containsFin pn.meta.finalizers finalizerName = true)
    (hvpc : env.getPrivateNetwork pn.spec.zone pn.spec.id = Except.error e) :
    (reconcile env).1 = ⟨RequeueDuration, some e⟩ := by
  simp [reconcile, hget, hpfx, hdel, normalBranch, hfin, syncBranch, hvpc]

/-- C5 witness: the amended behaviour at the concrete failing environment. -/
theorem c5_witness : (reconcile envC5).1 = ⟨RequeueDuration, some "vpc api error"⟩ :=
  c5_requeue_with_error envC5 pnC5 { cidr := "10.0.0.0/24" } "vpc api error" rfl rfl rfl rfl rfl

/-- Node used by the C3 scenario: empty provider identifier, so resolution
uses the name-based fallback, which fails below. -/
def nodeC3 : Node := { name := "node-1", providerID := "" }

/-- Environment for the C3 counterexample: server listing fails, so node
resolution fails for the only node. -/
def envC3 : Env :=
  { baseEnv with
    getPN := .ok pnC5
    listNodes := .ok [nodeC3]
    listServers := fun _ _ => .error "instance api down" }

/-- C3 counterexample: node resolution fails for the only node, yet the
pass returns success with no error and no requeue. -/
theorem c3_counterexample :
    (∃ e, getServerFromNode envC3 nodeC3 = Except.error e) ∧
    reconcile envC3 = (⟨0, none⟩, []) :=
  ⟨⟨"instance api down", rfl⟩, rfl⟩

/-- C3 amended: when resolving a node to its cloud server fails during
synchronization, the failure is only logged: the node loop breaks (so
remaining nodes are skipped) and the pass returns success with no error
and no requeue. -/
theorem c3_resolution_failure_swallowed (env : Env) (pn : PrivateNetwork) (pfx : IpamPfx)
    (node : Node) (rest : List Node) (l : List NetworkInterface) (e : String)
    (hget : env.getPN = Except.ok pn)
    (hpfx : env.newPfx pn.spec.cidr = Except.ok pfx)
    (hdel : pn.meta.deletionTimestamp.isNone = true)
    (hfin : containsFin pn.meta.finalizers finalizerName = true)
    (hvpc : env.getPrivateNetwork pn.spec.zone pn.spec.id = Except.ok ())
    (hnodes : env.listNodes = Except.ok (node :: rest))
    (hlist : env.listNicsForNode pn.meta.name node.name = Except.ok l)
    (hsrv : getServerFromNode env node = Except.error e) :
    (∀ (env2 : Env) (pn2 : PrivateNetwork) (pfx2 : IpamPfx) (node2 : Node)
        (l2 : List NetworkInterface) (e2 : String),
      env2.listNicsForNode pn2.meta.name node2.name = Except.ok l2 →
      getServerFromNode env2 node2 = Except.error e2 →
      syncNode env2 pn2 pfx2 node2 = ([], LoopOut.brk)) ∧
    reconcile env = (⟨0, none⟩, []) := by
  constructor
  · intro env2 pn2 pfx2 node2 l2 e2 h1 h2
    simp [syncNode, h1, h2]
  · have hsn : syncNode env pn pfx node = ([], LoopOut.brk) := by
      simp [syncNode, hlist, hsrv]
    simp [reconcile, hget, hpfx, hdel, normalBranch, hfin, syncBranch, hvpc, hnodes,
      syncNodes, hsn]

/-- C3 witness: the amended behaviour at the concrete failing environment. -/
theorem c3_witness :
    (∀ (env2 : Env) (pn2 : PrivateNetwork) (pfx2 : IpamPfx) (node2 : Node)
        (l2 : List NetworkInterface) (e2 : String),
      env2.listNicsForNode pn2.meta.name node2.name = Except.ok l2 →
      getServerFromNode env2 node2 = Except.error e2 →
      syncNode env2 pn2 pfx2 node2 = ([], LoopOut.brk)) ∧
    reconcile envC3 = (⟨0, none⟩, []) :=
  c3_resolution_failure_swallowed envC3 pnC5 { cidr := "10.0.0.0/24" } nodeC3 [] [] "instance api down"
    rfl rfl rfl rfl rfl rfl rfl rfl

/-- C4: when the object store lists more than one NetworkInterface for a
(PrivateNetwork, Node) pair, the pass aborts with the fixed reschedule (and
a nil error, since the resolution error variable is nil there): it creates
no NetworkInterface for the pair and deletes none of the conflicting
records — the trace of mutating calls is empty.  The first conjunct states
the per-node abort for arbitrary inputs; the rest instantiates the pass
with the violating pair first in the node list. -/
theorem c4_duplicate_nics_abort (env : Env) (pn : PrivateNetwork) (pfx : IpamPfx)
    (node : Node) (rest : List Node) (l : List NetworkInterface) (s : Server) (pnic : PrivateNIC)
    (hget : env.getPN = Except.ok pn)
    (hpfx : env.newPfx pn.spec.cidr = Except.ok pfx)
    (hdel : pn.meta.deletionTimestamp.isNone = true)
    (hfin : containsFin pn.meta.finalizers finalizerName = true)
    (hvpc : env.getPrivateNetwork pn.spec.zone pn.spec.id = Except.ok ())
    (hnodes : env.listNodes = Except.ok (node :: rest))
    (hlist : env.listNicsForNode pn.meta.name node.name = Except.ok l)
    (hlen : l.length > 1)
    (hsrv : getServerFromNode env node = Except.ok s)
    (hfind : findPNic s.privateNics pn.spec.id = some pnic) :
    (∀ (env2 : Env) (pn2 : PrivateNetwork) (pfx2 : IpamPfx) (node2 : Node)
        (l2 : List NetworkInterface) (p2 : PrivateNIC) (acts2 : List Act),
      l2.length > 1 →
      afterNic env2 pn2 pfx2 node2 l2 p2 acts2 = (acts2, LoopOut.ret ⟨RequeueDuration, none⟩)) ∧
    reconcile env = (⟨RequeueDuration, none⟩, []) := by
  have habort : ∀ (env2 : Env) (pn2 : PrivateNetwork) (pfx2 : IpamPfx) (node2 : Node)
      (l2 : List NetworkInterface) (p2 : PrivateNIC) (acts2 : List Act),
      l2.length > 1 →
      afterNic env2 pn2 pfx2 node2 l2 p2 acts2 = (acts2, LoopOut.ret ⟨RequeueDuration, none⟩) := by
    intro env2 pn2 pfx2 node2 l2 p2 acts2 h
    simp [afterNic, h]
  refine ⟨habort, ?_⟩
  have hsn : syncNode env pn pfx node = ([], LoopOut.ret ⟨RequeueDuration, none⟩) := by
    simp [syncNode, hlist, hsrv, hfind, habort env pn pfx node l pnic [] hlen]
  simp [reconcile, hget, hpfx, hdel, normalBranch, hfin, syncBranch, hvpc, hnodes,
    syncNodes, hsn]

/-- Server used by the C4 scenario: already attached to the network. -/
def srvC4 : Server :=
  { id := "srv1", zone := "fr-par-1"
    privateNics := [{ id := "pnic1", privateNetworkID := "netid", macAddress := "aa:bb" }] }

/-- Node used by the C4 scenario. -/
def nodeC4 : Node := { name := "node-1", providerID := "" }

/-- Environment for the C4 scenario: two NetworkInterfaces exist for the
pair, and the node resolves (via the one-server fallback) to a server
already attached to the network. -/
def envC4 : Env :=
  { baseEnv with
    getPN := .ok pnC5
    listNodes := .ok [nodeC4]
    listNicsForNode := fun _ _ => .ok [{ meta := { name := "nic-a" } }, { meta := { name := "nic-b" } }]
    listServers := fun _ _ => .ok [srvC4] }

/-- C4 witness: the duplicate-pair abort at the concrete environment. -/
theorem c4_witness :
    (∀ (env2 : Env) (pn2 : PrivateNetwork) (pfx2 : IpamPfx) (node2 : Node)
        (l2 : List NetworkInterface) (p2 : PrivateNIC) (acts2 : List Act),
      l2.length > 1 →
      afterNic env2 pn2 pfx2 node2 l2 p2 acts2 = (acts2, LoopOut.ret ⟨RequeueDuration, none⟩)) ∧
    reconcile envC4 = (⟨RequeueDuration, none⟩, []) :=
  c4_duplicate_nics_abort envC4 pnC5 { cidr := "10.0.0.0/24" } nodeC4 []
    [{ meta := { name := "nic-a" } }, { meta := { name := "nic-b" } }] srvC4
    { id := "pnic1", privateNetworkID := "netid", macAddress := "aa:bb" }
    rfl rfl rfl rfl rfl rfl rfl (by decide) rfl rfl

/-- Does a trace stay clear of network-level cleanup calls (prefix deletion
and PrivateNetwork persists)? -/
def noCleanup (l : List Act) : Bool :=
  l.all (fun a => !a.isDelPfx && !a.isUpdatePN)

theorem noCleanup_append (l1 l2 : List Act) :
    noCleanup (l1 ++ l2) = (noCleanup l1 && noCleanup l2) := by
  simp [noCleanup, List.all_append]

theorem finishNic_clean (env : Env) (acts : List Act) (nic : NetworkInterface)
    (h : noCleanup acts = true) :
    noCleanup (finishNic env acts nic).1 = true ∧
    (∀ r, (finishNic env acts nic).2 = some r → r.err ≠ none) := by
  cases h2 : env.updateNicObj (nicRemoveFin nic ipFinalizerName) with
  | error e =>
    constructor
    · simp [finishNic, h2, noCleanup_append]
      simpa [noCleanup, Act.isDelPfx, Act.isUpdatePN] using h
    · intro r hr
      simp [finishNic, h2] at hr
      simp [← hr]
  | ok u =>
    constructor
    · simp [finishNic, h2, noCleanup_append]
      simpa [noCleanup, Act.isDelPfx, Act.isUpdatePN] using h
    · intro r hr
      simp [finishNic, h2] at hr

theorem nicServerCleanup_clean (env : Env) (pn : PrivateNetwork) (acts : List Act)
    (nic : NetworkInterface) (node : Node) (h : noCleanup acts = true) :
    noCleanup (nicServerCleanup env pn acts nic node).1 = true ∧
    (∀ r, (nicServerCleanup env pn acts nic node).2 = some r → r.err ≠ none) := by
  cases hs : getServerFromNode env node with
  | error e =>
    constructor
    · simpa [nicServerCleanup, hs] using h
    · intro r hr
      simp [nicServerCleanup, hs] at hr
      simp [← hr]
  | ok server =>
    by_cases hid : findPNicID server.privateNics pn.spec.id = ""
    · have := finishNic_clean env acts nic h
      constructor
      · simpa [nicServerCleanup, hs, hid] using this.1
      · intro r hr
        refine this.2 r ?_
        simpa [nicServerCleanup, hs, hid] using hr
    · cases hd : env.deleteCloudNic server.zone (findPNicID server.privateNics pn.spec.id) server.id with
      | error e =>
        constructor
        · simp [nicServerCleanup, hs, hid, hd, noCleanup_append]
          simpa [noCleanup, Act.isDelPfx, Act.isUpdatePN] using h
        · intro r hr
          simp [nicServerCleanup, hs, hid, hd] at hr
          simp [← hr]
      | ok u =>
        have hacts : noCleanup (acts ++
            [Act.deleteCloudNic server.zone (findPNicID server.privateNics pn.spec.id) server.id]) = true := by
          simp [noCleanup_append]
          simpa [noCleanup, Act.isDelPfx, Act.isUpdatePN] using h
        have := finishNic_clean env
          (acts ++ [Act.deleteCloudNic server.zone (findPNicID server.privateNics pn.spec.id) server.id])
          nic hacts
        constructor
        · simpa [nicServerCleanup, hs, hid, hd] using this.1
        · intro r hr
          refine this.2 r ?_
          simpa [nicServerCleanup, hs, hid, hd] using hr

theorem processNicCont_clean (env : Env) (pn : PrivateNetwork) (acts : List Act)
    (nic : NetworkInterface) (h : noCleanup acts = true) :
    noCleanup (processNicCont env pn acts nic).1 = true ∧
    (∀ r, (processNicCont env pn acts nic).2 = some r → r.err ≠ none) := by
  cases hn : env.getNode nic.spec.nodeName with
  | error ge =>
    cases ge with
    | notFound =>
      have := finishNic_clean env acts nic h
      constructor
      · simpa [processNicCont, hn] using this.1
      · intro r hr
        refine this.2 r ?_
        simpa [processNicCont, hn] using hr
    | other e =>
      constructor
      · simpa [processNicCont, hn] using h
      · intro r hr
        simp [processNicCont, hn] at hr
        simp [← hr]
  | ok node =>
    have := nicServerCleanup_clean env pn acts nic node h
    constructor
    · simpa [processNicCont, hn] using this.1
    · intro r hr
      refine this.2 r ?_
      simpa [processNicCont, hn] using hr

theorem processNic_clean (env : Env) (pn : PrivateNetwork) (nic : NetworkInterface) :
    noCleanup (processNic env pn nic).1 = true ∧
    (∀ r, (processNic env pn nic).2 = some r → r.err ≠ none) := by
  by_cases hd : nic.meta.deletionTimestamp.isNone
  · cases h2 : env.deleteNicObj nic with
    | error e =>
      constructor
      · simp [processNic, hd, h2, noCleanup, Act.isDelPfx, Act.isUpdatePN]
      · intro r hr
        simp [processNic, hd, h2] at hr
        simp [← hr]
    | ok u =>
      constructor
      · simp [processNic, hd, h2, noCleanup, Act.isDelPfx, Act.isUpdatePN]
      · intro r hr
        simp [processNic, hd, h2] at hr
  · by_cases hf : containsFin nic.meta.finalizers finalizerName
    · constructor
      · simp [processNic, hd, hf, noCleanup]
      · intro r hr
        simp [processNic, hd, hf] at hr
    · have hrel : noCleanup [Act.releaseIP pn.spec.cidr (addrIP nic.spec.address)] = true := by
        simp [noCleanup, Act.isDelPfx, Act.isUpdatePN]
      cases h3 : env.releaseIP pn.spec.cidr (addrIP nic.spec.address) with
      | ok =>
        have := processNicCont_clean env pn [Act.releaseIP pn.spec.cidr (addrIP nic.spec.address)] nic hrel
        constructor
        · simpa [processNic, hd, hf, h3] using this.1
        · intro r hr
          refine this.2 r ?_
          simpa [processNic, hd, hf, h3] using hr
      | notFound =>
        have := processNicCont_clean env pn [Act.releaseIP pn.spec.cidr (addrIP nic.spec.address)] nic hrel
        constructor
        · simpa [processNic, hd, hf, h3] using this.1
        · intro r hr
          refine this.2 r ?_
          simpa [processNic, hd, hf, h3] using hr
      | err e =>
        constructor
        · simp [processNic, hd, hf, h3, noCleanup, Act.isDelPfx, Act.isUpdatePN]
        · intro r hr
          simp [processNic, hd, hf, h3] at hr
          simp [← hr]

theorem processNics_clean (env : Env) (pn : PrivateNetwork) (nics : List NetworkInterface) :
    noCleanup (processNics env pn nics).1 = true ∧
    (∀ r, (processNics env pn nics).2 = some r → r.err ≠ none) := by
  induction nics with
  | nil => exact ⟨rfl, by intro r hr; simp [processNics] at hr⟩
  | cons nic rest ih =>
    have h1 := processNic_clean env pn nic
    cases hp : processNic env pn nic with
    | mk acts o =>
      cases o with
      | some r0 =>
        constructor
        · have := h1.1
          rw [hp] at this
          simpa [processNics, hp] using this
        · intro r hr
          simp [processNics, hp] at hr
          refine h1.2 r ?_
          rw [hp, ← hr]
      | none =>
        cases hq : processNics env pn rest with
        | mk acts2 o2 =>
          constructor
          · have ha : noCleanup acts = true := by
              have := h1.1
              rw [hp] at this
              exact this
            have hb : noCleanup acts2 = true := by
              have := ih.1
              rw [hq] at this
              exact this
            simp [processNics, hp, hq, noCleanup_append, ha, hb]
          · intro r hr
            simp [processNics, hp, hq] at hr
            refine ih.2 r ?_
            rw [hq, hr]

/-- C1: in a deletion pass where the PrivateNetwork still carries the
generic finalizer and at least one child NetworkInterface is listed, the
trace contains no prefix deletion and no PrivateNetwork persist (so the
prefix and the generic finalizer are left in place), and if the pass ends
without an error it returns the fixed-delay reschedule; network-level
cleanup can therefore only happen in a pass whose child list is empty. -/
theorem c1_children_gate_cleanup (env : Env) (pn : PrivateNetwork) (pfx : IpamPfx)
    (nics : List NetworkInterface)
    (hget : env.getPN = Except.ok pn)
    (hpfx : env.newPfx pn.spec.cidr = Except.ok pfx)
    (hdel : pn.meta.deletionTimestamp.isNone = false)
    (hfin : containsFin pn.meta.finalizers finalizerName = true)
    (hlist : env.listNicsByNetwork pn.meta.name = Except.ok nics)
    (hne : nics ≠ []) :
    noCleanup (reconcile env).2 = true ∧
    ((reconcile env).1.err = none → (reconcile env).1 = ⟨RequeueDuration, none⟩) := by
  have hrec : reconcile env = delBranch env pn := by
    simp [reconcile, hget, hpfx, hdel]
  have hlen : ¬ nics.length = 0 := by simpa using hne
  have hc := processNics_clean env pn nics
  cases hp : processNics env pn nics with
  | mk acts o =>
    have ha : noCleanup acts = true := by
      have := hc.1
      rw [hp] at this
      exact this
    cases o with
    | some r =>
      have hre : r.err ≠ none := by
        refine hc.2 r ?_
        rw [hp]
      have hdb : delBranch env pn = (r, acts) := by
        simp [delBranch, hfin, hlist, hp]
      rw [hrec, hdb]
      exact ⟨ha, fun hcon => absurd hcon hre⟩
    | none =>
      have hdb : delBranch env pn = (⟨RequeueDuration, none⟩, acts) := by
        simp [delBranch, hfin, hlist, hp, hlen]
      rw [hrec, hdb]
      exact ⟨ha, fun _ => rfl⟩

/-- Deletion-marked PrivateNetwork used by the C1 scenario. -/
def pnC1 : PrivateNetwork :=
  { meta := { name := "pn-a", finalizers := ["scaleway.com/finalizer"], deletionTimestamp := some 7 }
    spec := { id := "netid", zone := "fr-par-1", cidr := "10.0.0.0/24" } }

/-- A remaining child NetworkInterface, not yet marked for deletion. -/
def nicC1 : NetworkInterface := { meta := { name := "nic-1" } }

/-- Environment for the C1 scenario: one child is still listed. -/
def envC1 : Env :=
  { baseEnv with
    getPN := .ok pnC1
    listNicsByNetwork := fun _ => .ok [nicC1] }

/-- C1 witness: the child-gated behaviour at the concrete environment. -/
theorem c1_witness :
    noCleanup (reconcile envC1).2 = true ∧
    ((reconcile envC1).1.err = none → (reconcile envC1).1 = ⟨RequeueDuration, none⟩) :=
  c1_children_gate_cleanup envC1 pnC1 { cidr := "10.0.0.0/24" } [nicC1]
    rfl rfl rfl rfl rfl (List.cons_ne_nil _ _)

/-- Does a trace stay clear of creation calls (NetworkInterface objects and
cloud private NICs)? -/
def noCreate (l : List Act) : Bool :=
  l.all (fun a => !a.isCreateNicObj && !a.isCreateCloudNic)

theorem syncNode_converged (env : Env) (pn : PrivateNetwork) (pfx : IpamPfx) (node : Node)
    (l : List NetworkInterface)
    (hlist : env.listNicsForNode pn.meta.name node.name = Except.ok l)
    (hlen : l.length = 1)
    (hnic : ∀ s, getServerFromNode env node = Except.ok s →
      (findPNic s.privateNics pn.spec.id).isSome = true) :
    syncNode env pn pfx node = ([], LoopOut.next) ∨
    syncNode env pn pfx node = ([], LoopOut.brk) := by
  cases hs : getServerFromNode env node with
  | error e =>
    right
    simp [syncNode, hlist, hs]
  | ok server =>
    left
    have hsome := hnic server hs
    cases hf : findPNic server.privateNics pn.spec.id with
    | none =>
      rw [hf] at hsome
      simp at hsome
    | some pnic =>
      simp [syncNode, hlist, hs, hf, afterNic, hlen]

theorem syncNodes_converged (env : Env) (pn : PrivateNetwork) (pfx : IpamPfx) (nodes : List Node)
    (hone : ∀ node ∈ nodes, ∃ l,
      env.listNicsForNode pn.meta.name node.name = Except.ok l ∧ l.length = 1)
    (hnic : ∀ node ∈ nodes, ∀ s, getServerFromNode env node = Except.ok s →
      (findPNic s.privateNics pn.spec.id).isSome = true) :
    (syncNodes env pn pfx nodes).1 = [] := by
  induction nodes with
  | nil => rfl
  | cons node rest ih =>
    obtain ⟨l, hl, hlen⟩ := hone node (by simp)
    have hd := syncNode_converged env pn pfx node l hl hlen (hnic node (by simp))
    have ih2 := ih (fun n hn => hone n (by simp [hn])) (fun n hn => hnic n (by simp [hn]))
    rcases hd with h | h
    · cases hq : syncNodes env pn pfx rest with
      | mk acts2 o2 =>
        rw [hq] at ih2
        simp at ih2
        simp [syncNodes, h, hq, ih2]
    · simp [syncNodes, h]

theorem syncBranch_noCreate (env : Env) (pn : PrivateNetwork) (pfx : IpamPfx) (acts0 : List Act)
    (nodes : List Node)
    (hnodes : env.listNodes = Except.ok nodes)
    (hone : ∀ node ∈ nodes, ∃ l,
      env.listNicsForNode pn.meta.name node.name = Except.ok l ∧ l.length = 1)
    (hnic : ∀ node ∈ nodes, ∀ s, getServerFromNode env node = Except.ok s →
      (findPNic s.privateNics pn.spec.id).isSome = true)
    (h0 : noCreate acts0 = true) :
    noCreate (syncBranch env pn pfx acts0).2 = true := by
  cases hv : env.getPrivateNetwork pn.spec.zone pn.spec.id with
  | error e => simpa [syncBranch, hv] using h0
  | ok u =>
    have htr := syncNodes_converged env pn pfx nodes hone hnic
    cases hq : syncNodes env pn pfx nodes with
    | mk acts o =>
      rw [hq] at htr
      simp at htr
      subst htr
      cases o with
      | some r => simpa [syncBranch, hv, hnodes, hq] using h0
      | none => simpa [syncBranch, hv, hnodes, hq] using h0

/-- C2: a reconciliation pass run against an already-converged state — for
every listed node the pair has exactly one NetworkInterface and the node's
server (when it resolves) already carries a private NIC for the network's
cloud ID — issues no NetworkInterface creation and no cloud private NIC
creation: the attached NIC is reused and no duplicate object is created.
So re-running a pass with no intervening state change creates nothing. -/
theorem c2_second_pass_creates_nothing (env : Env) (pn : PrivateNetwork) (pfx : IpamPfx)
    (nodes : List Node)
    (hget : env.getPN = Except.ok pn)
    (hpfx : env.newPfx pn.spec.cidr = Except.ok pfx)
    (hdel : pn.meta.deletionTimestamp.isNone = true)
    (hnodes : env.listNodes = Except.ok nodes)
    (hone : ∀ node ∈ nodes, ∃ l,
      env.listNicsForNode pn.meta.name node.name = Except.ok l ∧ l.length = 1)
    (hnic : ∀ node ∈ nodes, ∀ s, getServerFromNode env node = Except.ok s →
      (findPNic s.privateNics pn.spec.id).isSome = true) :
    noCreate (reconcile env).2 = true := by
  have hnb : reconcile env = normalBranch env pn pfx := by
    simp [reconcile, hget, hpfx, hdel]
  rw [hnb]
  by_cases hf : containsFin pn.meta.finalizers finalizerName = true
  · simp only [normalBranch, hf, if_true]
    exact syncBranch_noCreate env pn pfx [] nodes hnodes hone hnic rfl
  · have hf2 : containsFin pn.meta.finalizers finalizerName = false := by
      simpa using hf
    simp only [normalBranch, hf2, Bool.false_eq_true, if_false]
    cases hu : env.updatePN (pnAddFin pn finalizerName) with
    | error e =>
      simp [hu, noCreate, Act.isCreateNicObj, Act.isCreateCloudNic]
    | ok u =>
      simp only [hu]
      exact syncBranch_noCreate env (pnAddFin pn finalizerName) pfx
        [Act.updatePN (pnAddFin pn finalizerName)] nodes hnodes hone hnic
        (by simp [noCreate, Act.isCreateNicObj, Act.isCreateCloudNic])

/-- The single existing NetworkInterface of the converged C2 scenario. -/
def nicC2 : NetworkInterface := { meta := { name := "nic-x" } }

/-- Environment for the C2 scenario: converged state — one NetworkInterface
for the pair and a server already attached to the network. -/
def envC2 : Env :=
  { baseEnv with
    getPN := .ok pnC5
    listNodes := .ok [nodeC4]
    listNicsForNode := fun _ _ => .ok [nicC2]
    listServers := fun _ _ => .ok [srvC4] }

/-- C2 witness: a pass over the converged concrete state creates nothing. -/
theorem c2_witness : noCreate (reconcile envC2).2 = true :=
  c2_second_pass_creates_nothing envC2 pnC5 { cidr := "10.0.0.0/24" } [nodeC4]
    rfl rfl rfl rfl
    (by
      intro node hn
      simp at hn
      subst hn
      exact ⟨[nicC2], rfl, rfl⟩)
    (by
      intro node hn s hs
      simp at hn
      subst hn
      have hres : getServerFromNode envC2 nodeC4 = Except.ok srvC4 := rfl
      rw [hres] at hs
      cases Except.ok.inj hs
      rfl)

theorem find_cons_pos {α : Type} (p : α → Bool) (a : α) (l : List α) (h : p a = true) :
    (a :: l).find? p = some a := by
  simp [List.find?, h]

theorem find_cons_neg {α : Type} (p : α → Bool) (a : α) (l : List α) (h : p a = false) :
    (a :: l).find? p = l.find? p := by
  simp [List.find?, h]

theorem find_none_of_any_false {α : Type} (p : α → Bool) (l : List α) (h : l.any p = false) :
    l.find? p = none := by
  induction l with
  | nil => rfl
  | cons a t ih =>
    simp only [List.any_cons, Bool.or_eq_false_iff] at h
    rw [find_cons_neg _ _ _ h.1]
    exact ih h.2

theorem find_append_none {α : Type} (p : α → Bool) (l1 l2 : List α) (h : l1.find? p = none) :
    (l1 ++ l2).find? p = l2.find? p := by
  induction l1 with
  | nil => rfl
  | cons b t ih =>
    by_cases hb : p b = true
    · rw [find_cons_pos _ _ _ hb] at h
      exact absurd h (by simp)
    · have hb2 : p b = false := by simpa using hb
      rw [find_cons_neg _ _ _ hb2] at h
      rw [List.cons_append, find_cons_neg _ _ _ hb2]
      exact ih h

theorem find_append_some {α : Type} (p : α → Bool) (l1 l2 : List α) (a : α)
    (h : l1.find? p = some a) :
    (l1 ++ l2).find? p = some a := by
  induction l1 with
  | nil => simp [List.find?] at h
  | cons b t ih =>
    by_cases hb : p b = true
    · rw [find_cons_pos _ _ _ hb] at h
      rw [List.cons_append, find_cons_pos _ _ _ hb]
      exact h
    · have hb2 : p b = false := by simpa using hb
      rw [find_cons_neg _ _ _ hb2] at h
      rw [List.cons_append, find_cons_neg _ _ _ hb2]
      exact ih h

theorem bool_not_true {b : Bool} (h : ¬ b = true) : b = false := by
  cases b
  · rfl
  · exact absurd rfl h

theorem find_setKV_any (m : List (String × String)) (k v : String)
    (h : m.any (fun p => p.1 == k) = true) :
    (m.map (fun p => if p.1 == k then (k, v) else p)).find? (fun q => q.1 == k) = some (k, v) := by
  induction m with
  | nil => simp at h
  | cons p t ih =>
    rw [List.map_cons]
    by_cases hp : (p.1 == k) = true
    · rw [if_pos hp, find_cons_pos (fun q => q.1 == k) (k, v) _ (by simp)]
    · have hp2 : (p.1 == k) = false := bool_not_true hp
      have ht : t.any (fun p => p.1 == k) = true := by simpa [hp2] using h
      rw [if_neg hp, find_cons_neg (fun q => q.1 == k) p _ hp2]
      exact ih ht

theorem getKV_setKV_self (m : List (String × String)) (k v : String) :
    getKV (setKV m k v) k = some v := by
  by_cases h : m.any (fun p => p.1 == k) = true
  · unfold setKV getKV
    rw [if_pos h, find_setKV_any m k v h]
    rfl
  · have h2 : m.any (fun p => p.1 == k) = false := bool_not_true h
    unfold setKV getKV
    rw [if_neg h, find_append_none _ _ _ (find_none_of_any_false _ _ h2),
      find_cons_pos (fun q => q.1 == k) (k, v) [] (by simp)]
    rfl

theorem find_setKV_map_ne (m : List (String × String)) (k v k2 : String) (hne : k2 ≠ k) :
    (m.map (fun p => if p.1 == k then (k, v) else p)).find? (fun q => q.1 == k2) =
      m.find? (fun q => q.1 == k2) := by
  have hk : (k == k2) = false := by
    simp
    exact Ne.symm hne
  induction m with
  | nil => rfl
  | cons p t ih =>
    rw [List.map_cons]
    by_cases hp : (p.1 == k) = true
    · have hp1 : p.1 = k := by simpa using hp
      have hpk2 : (p.1 == k2) = false := by rw [hp1]; exact hk
      rw [if_pos hp, find_cons_neg (fun q => q.1 == k2) (k, v) _ hk,
        find_cons_neg (fun q => q.1 == k2) p t hpk2]
      exact ih
    · by_cases hq : (p.1 == k2) = true
      · rw [if_neg hp, find_cons_pos (fun q => q.1 == k2) p _ hq,
          find_cons_pos (fun q => q.1 == k2) p t hq]
      · have hq2 : (p.1 == k2) = false := bool_not_true hq
        rw [if_neg hp, find_cons_neg (fun q => q.1 == k2) p _ hq2,
          find_cons_neg (fun q => q.1 == k2) p t hq2]
        exact ih

theorem getKV_setKV_ne (m : List (String × String)) (k v k2 : String) (hne : k2 ≠ k) :
    getKV (setKV m k v) k2 = getKV m k2 := by
  by_cases h : m.any (fun p => p.1 == k) = true
  · unfold setKV getKV
    rw [if_pos h, find_setKV_map_ne m k v k2 hne]
  · have hk : (k == k2) = false := by
      simp
      exact Ne.symm hne
    unfold setKV getKV
    cases hf : m.find? (fun p => p.1 == k2) with
    | some q => rw [if_neg h, find_append_some _ _ _ _ hf]
    | none =>
      rw [if_neg h, find_append_none _ _ _ hf,
        find_cons_neg (fun p => p.1 == k2) (k, v) [] hk]
      rfl

theorem copyInto_cons (dst : List (String × String)) (p : String × String)
    (t : List (String × String)) :
    copyInto dst (p :: t) = copyInto (setKV dst p.1 p.2) t := rfl

theorem getKV_copyInto_notin (dst src : List (String × String)) (k : String)
    (h : ∀ p ∈ src, p.1 ≠ k) :
    getKV (copyInto dst src) k = getKV dst k := by
  induction src generalizing dst with
  | nil => rfl
  | cons p t ih =>
    rw [copyInto_cons]
    rw [ih (setKV dst p.1 p.2) (fun q hq => h q (by simp [hq]))]
    exact getKV_setKV_ne dst p.1 p.2 k (Ne.symm (h p (by simp)))

theorem getKV_copyInto_mem (dst src : List (String × String)) (k v : String)
    (hnd : (src.map Prod.fst).Nodup)
    (hfind : getKV src k = some v) :
    getKV (copyInto dst src) k = some v := by
  induction src generalizing dst with
  | nil => simp [getKV] at hfind
  | cons p t ih =>
    have hnd2 : (t.map Prod.fst).Nodup ∧ p.1 ∉ t.map Prod.fst := by
      rw [List.map_cons, List.nodup_cons] at hnd
      exact ⟨hnd.2, hnd.1⟩
    by_cases hp : (p.1 == k) = true
    · have hp1 : p.1 = k := by simpa using hp
      have hv : p.2 = v := by
        unfold getKV at hfind
        rw [find_cons_pos (fun q => q.1 == k) p t hp] at hfind
        simpa using hfind
      have hnotin : ∀ q ∈ t, q.1 ≠ k := by
        intro q hq hqk
        exact hnd2.2 (hp1 ▸ hqk ▸ List.mem_map_of_mem Prod.fst hq)
      rw [copyInto_cons, getKV_copyInto_notin _ t k hnotin, hp1, getKV_setKV_self, hv]
    · have hp2 : (p.1 == k) = false := bool_not_true hp
      have hfind2 : getKV t k = some v := by
        unfold getKV at hfind
        rw [find_cons_neg (fun q => q.1 == k) p t hp2] at hfind
        exact hfind
      rw [copyInto_cons]
      exact ih (setKV dst p.1 p.2) hnd2.1 hfind2

/-- The NetworkInterface as persisted by the synchronizer: the constructed
object with the allocated address (suffixed by the prefix's mask length)
and the cloud NIC identifier filled in. -/
def builtNic (pn : PrivateNetwork) (nodeName ip ipnetStr pnicID : String) : NetworkInterface :=
  setAddrID (mkNicBase pn nodeName) (ip ++ "/" ++ maskPart ipnetStr) pnicID

/-- C8: when zero NetworkInterfaces exist for the pair and every step
succeeds, the synchronizer persists exactly one new NetworkInterface and
then its MAC address as a separate status update (in that order), and the
persisted object carries both finalizer tags, the controller owner
reference to the PrivateNetwork, every inherited parent label (apart from
the two identifying keys, which are overridden) and annotation, the two
identifying labels, the CIDR-suffixed allocated address, the cloud NIC
identifier, and the parent-derived generated name. -/
theorem c8_created_nic_shape (env : Env) (pn : PrivateNetwork) (pfx : IpamPfx) (node : Node)
    (l : List NetworkInterface) (s : Server) (pnic : PrivateNIC) (ip ipnetStr : String)
    (hlist : env.listNicsForNode pn.meta.name node.name = Except.ok l)
    (hlen : l.length = 0)
    (hsrv : getServerFromNode env node = Except.ok s)
    (hfind : findPNic s.privateNics pn.spec.id = some pnic)
    (href : env.setCtrlRef pn = Except.ok ())
    (hip : env.acquireIP pfx.cidr = Except.ok ip)
    (hnet : env.pfxIPNet pfx.cidr = Except.ok ipnetStr)
    (hcre : env.createNicObj (builtNic pn node.name ip ipnetStr pnic.id) = Except.ok ())
    (hupd : env.updateNicStatus
      (withMac (builtNic pn node.name ip ipnetStr pnic.id) pnic.macAddress) = Except.ok ())
    (hlnd : (pn.meta.labels.map Prod.fst).Nodup)
    (hand : (pn.meta.annotations.map Prod.fst).Nodup) :
    syncNode env pn pfx node =
      ([Act.acquireIP pfx.cidr,
        Act.createNicObj (builtNic pn node.name ip ipnetStr pnic.id),
        Act.updateNicStatus (withMac (builtNic pn node.name ip ipnetStr pnic.id) pnic.macAddress)],
       LoopOut.next) ∧
    containsFin (builtNic pn node.name ip ipnetStr pnic.id).meta.finalizers finalizerName = true ∧
    containsFin (builtNic pn node.name ip ipnetStr pnic.id).meta.finalizers ipFinalizerName = true ∧
    (builtNic pn node.name ip ipnetStr pnic.id).meta.ownerReferences =
      [{ name := pn.meta.name, controller := true }] ∧
    getKV (builtNic pn node.name ip ipnetStr pnic.id).meta.labels privateNetworkLabel =
      some pn.meta.name ∧
    getKV (builtNic pn node.name ip ipnetStr pnic.id).meta.labels nodeLabel = some node.name ∧
    (∀ k v, getKV pn.meta.labels k = some v → k ≠ privateNetworkLabel → k ≠ nodeLabel →
      getKV (builtNic pn node.name ip ipnetStr pnic.id).meta.labels k = some v) ∧
    (∀ k v, getKV pn.meta.annotations k = some v →
      getKV (builtNic pn node.name ip ipnetStr pnic.id).meta.annotations k = some v) ∧
    (builtNic pn node.name ip ipnetStr pnic.id).spec.address = ip ++ "/" ++ maskPart ipnetStr ∧
    (builtNic pn node.name ip ipnetStr pnic.id).spec.id = pnic.id ∧
    (builtNic pn node.name ip ipnetStr pnic.id).meta.generateName = pn.meta.name ++ "-" := by
  have hcre2 : env.createNicObj
      (setAddrID (mkNicBase pn node.name) (ip ++ "/" ++ maskPart ipnetStr) pnic.id) =
      Except.ok () := hcre
  have hupd2 : env.updateNicStatus
      (withMac (setAddrID (mkNicBase pn node.name) (ip ++ "/" ++ maskPart ipnetStr) pnic.id)
        pnic.macAddress) = Except.ok () := hupd
  have hlabels_eq : (builtNic pn node.name ip ipnetStr pnic.id).meta.labels =
      setKV (setKV (copyInto [] pn.meta.labels) privateNetworkLabel pn.meta.name)
        nodeLabel node.name := rfl
  have hannot_eq : (builtNic pn node.name ip ipnetStr pnic.id).meta.annotations =
      copyInto [] pn.meta.annotations := rfl
  refine ⟨?_, rfl, rfl, rfl, ?_, ?_, ?_, ?_, rfl, rfl, rfl⟩
  · simp [syncNode, hlist, hsrv, hfind, afterNic, hlen, createNicFlow,
      constructNetworkInterfaceForPrivateNetwork, href, hip, hnet, nicPersistFlow,
      hcre2, hupd2, builtNic]
  · rw [hlabels_eq, getKV_setKV_ne _ nodeLabel node.name privateNetworkLabel (by decide)]
    exact getKV_setKV_self _ _ _
  · rw [hlabels_eq]
    exact getKV_setKV_self _ _ _
  · intro k v hkv h1 h2
    rw [hlabels_eq, getKV_setKV_ne _ _ _ _ h2, getKV_setKV_ne _ _ _ _ h1]
    exact getKV_copyInto_mem [] _ k v hlnd hkv
  · intro k v hkv
    rw [hannot_eq]
    exact getKV_copyInto_mem [] _ k v hand hkv

/-- Parent PrivateNetwork of the C8 scenario, with labels and annotations
to inherit. -/
def pnC8 : PrivateNetwork :=
  { meta := { name := "pn-a", labels := [("team", "net")], annotations := [("note", "x")]
              finalizers := ["scaleway.com/finalizer"] }
    spec := { id := "netid", zone := "fr-par-1", cidr := "10.0.0.0/24" } }

/-- The private NIC already attached in the C8 scenario. -/
def pnicC8 : PrivateNIC := { id := "pnic1", privateNetworkID := "netid", macAddress := "aa:bb" }

/-- Environment for the C8 scenario: no NetworkInterface exists yet and
every step succeeds. -/
def envC8 : Env :=
  { baseEnv with
    getPN := .ok pnC8
    listNodes := .ok [nodeC4]
    listServers := fun _ _ => .ok [srvC4] }

/-- C8 witness: the created-object shape at the concrete environment. -/
theorem c8_witness :
    syncNode envC8 pnC8 { cidr := "10.0.0.0/24" } nodeC4 =
      ([Act.acquireIP ({ cidr := "10.0.0.0/24" } : IpamPfx).cidr,
        Act.createNicObj (builtNic pnC8 nodeC4.name "10.0.0.1" "10.0.0.0/24" pnicC8.id),
        Act.updateNicStatus
          (withMac (builtNic pnC8 nodeC4.name "10.0.0.1" "10.0.0.0/24" pnicC8.id) pnicC8.macAddress)],
       LoopOut.next) ∧
    containsFin (builtNic pnC8 nodeC4.name "10.0.0.1" "10.0.0.0/24" pnicC8.id).meta.finalizers
      finalizerName = true ∧
    containsFin (builtNic pnC8 nodeC4.name "10.0.0.1" "10.0.0.0/24" pnicC8.id).meta.finalizers
      ipFinalizerName = true ∧
    (builtNic pnC8 nodeC4.name "10.0.0.1" "10.0.0.0/24" pnicC8.id).meta.ownerReferences =
      [{ name := pnC8.meta.name, controller := true }] ∧
    getKV (builtNic pnC8 nodeC4.name "10.0.0.1" "10.0.0.0/24" pnicC8.id).meta.labels
      privateNetworkLabel = some pnC8.meta.name ∧
    getKV (builtNic pnC8 nodeC4.name "10.0.0.1" "10.0.0.0/24" pnicC8.id).meta.labels
      nodeLabel = some nodeC4.name ∧
    (∀ k v, getKV pnC8.meta.labels k = some v → k ≠ privateNetworkLabel → k ≠ nodeLabel →
      getKV (builtNic pnC8 nodeC4.name "10.0.0.1" "10.0.0.0/24" pnicC8.id).meta.labels k = some v) ∧
    (∀ k v, getKV pnC8.meta.annotations k = some v →
      getKV (builtNic pnC8 nodeC4.name "10.0.0.1" "10.0.0.0/24" pnicC8.id).meta.annotations k =
        some v) ∧
    (builtNic pnC8 nodeC4.name "10.0.0.1" "10.0.0.0/24" pnicC8.id).spec.address =
      "10.0.0.1" ++ "/" ++ maskPart "10.0.0.0/24" ∧
    (builtNic pnC8 nodeC4.name "10.0.0.1" "10.0.0.0/24" pnicC8.id).spec.id = pnicC8.id ∧
    (builtNic pnC8 nodeC4.name "10.0.0.1" "10.0.0.0/24" pnicC8.id).meta.generateName =
      pnC8.meta.name ++ "-" :=
  c8_created_nic_shape envC8 pnC8 { cidr := "10.0.0.0/24" } nodeC4 [] srvC4 pnicC8
    "10.0.0.1" "10.0.0.0/24" rfl rfl rfl rfl rfl rfl rfl rfl rfl (by decide) (by decide)
